import Mathlib

/-!
Verification of the MiLi container utilities (src/include/container_utils.h)
against its specification, via a shallow embedding.

Modelling conventions:
- A sequence container (std::vector, std::list) is a `List α` in traversal
  order; an iterator into it is a position (`Nat`), the end iterator being
  represented by `none` in `Option Nat` results.
- std::map is a list of key/value entries whose keys are strictly ascending
  in the comparator order; std::set is a strictly ascending list of elements.
  The list order is the traversal (in-order) order and the strict sortedness
  is the tree invariant, carried as a `Pairwise` field of the structure.
- The comparator `Comp` is the `<` of a `LinearOrder`. The native tree
  primitives (member find, count, insert) match keys up to comparator
  equivalence `!(a < b) && !(b < a)`, whereas the generic linear scans use
  `operator==`, modelled by decidable equality.
- A returned C++ reference is modelled by the position of the referenced
  element, or by the referenced value where only the value matters; a pointer
  type `T*` is `Option _`, with `none` for NULL.
- Throwing is `Except ElementNotFound`; a total Lean function models code
  that cannot signal.
-/

namespace Mili

/-- Embeds the exception struct ElementNotFound (line 37). -/
inductive ElementNotFound : Type where
  | mk
deriving DecidableEq

/-- Embeds std::find(first, last, value) over a sequence range: the position
of the first element equal to the target, or `none` for the end iterator. -/
def stdFind {α : Type} [DecidableEq α] : List α → α → Option Nat
  | [], _ => none
  | x :: xs, e => if x = e then some 0 else (stdFind xs e).map (· + 1)

/-- Embeds the generic signaling find (lines 39-57): linear scan via std::find,
throwing ElementNotFound at the end iterator, otherwise returning a reference
(modelled as the position) to the found element. -/
def find {α : Type} [DecidableEq α] (c : List α) (e : α) : Except ElementNotFound Nat :=
  match stdFind c e with
  | none => Except.error ElementNotFound.mk
  | some i => Except.ok i

/-- Comparator equivalence of the ordered containers: neither argument is
less than the other under Comp, modelled as the order of a LinearOrder. -/
def cmpEquiv {α : Type} [LinearOrder α] (a b : α) : Bool :=
  !(decide (a < b)) && !(decide (b < a))

/-- Embeds std::map: entries in traversal order with strictly ascending keys
(the tree invariant). -/
structure StdMap (κ τ : Type) [LinearOrder κ] where
  entries : List (κ × τ)
  sortedKeys : entries.Pairwise (fun a b => a.1 < b.1)

/-- Embeds the member lookup m.find(key) of std::map: the entry whose key is
comparator-equivalent to the argument, `none` for the end iterator. On a
well-formed map this equals the first such entry in traversal order. -/
def StdMap.findEntry {κ τ : Type} [LinearOrder κ] (m : StdMap κ τ) (k : κ) : Option (κ × τ) :=
  m.entries.find? (fun p => cmpEquiv p.1 k)

/-- Embeds the signaling map find specialization (lines 59-77): member lookup,
throwing ElementNotFound at the end iterator, otherwise returning it->second. -/
def find_map {κ τ : Type} [LinearOrder κ] (m : StdMap κ τ) (k : κ) : Except ElementNotFound τ :=
  match m.findEntry k with
  | none => Except.error ElementNotFound.mk
  | some p => Except.ok p.2

/-- Embeds m.count(key) of std::map: the number of entries with an equivalent key. -/
def StdMap.count {κ τ : Type} [LinearOrder κ] (m : StdMap κ τ) (k : κ) : Nat :=
  m.entries.countP (fun p => cmpEquiv p.1 k)

/-- Embeds std::set: elements in traversal order, strictly ascending. -/
structure StdSet (α : Type) [LinearOrder α] where
  elems : List α
  sorted : elems.Pairwise (fun a b => a < b)

/-- Embeds s.count(key) of std::set. -/
def StdSet.count {α : Type} [LinearOrder α] (s : StdSet α) (k : α) : Nat :=
  s.elems.countP (fun x => cmpEquiv x k)

/-- Embeds the generic contains (lines 121-133): call the signaling find in a
try block, returning true on success and false on catching ElementNotFound. -/
def contains {α : Type} [DecidableEq α] (c : List α) (e : α) : Bool :=
  match find c e with
  | Except.ok _ => true
  | Except.error _ => false

/-- Embeds the vector and list contains specializations (lines 136-146, two
textually identical overloads): std::find compared against the end iterator. -/
def contains_seq {α : Type} [DecidableEq α] (c : List α) (e : α) : Bool :=
  (stdFind c e).isSome

/-- Embeds the map contains specialization (lines 148-152): m.count(key) > 0. -/
def contains_map {κ τ : Type} [LinearOrder κ] (m : StdMap κ τ) (k : κ) : Bool :=
  decide (0 < m.count k)

/-- Embeds the set contains specialization (lines 154-158): s.count(key) > 0. -/
def contains_set {α : Type} [LinearOrder α] (s : StdSet α) (k : α) : Bool :=
  decide (0 < s.count k)

/-- True exactly when a signaling call returned normally. -/
def succeeds {β : Type} : Except ElementNotFound β → Bool
  | Except.ok _ => true
  | Except.error _ => false

/-- Embeds the generic nothrow find (lines 80-98) with the evident intended
result, a pointer to the found element (`&*it`): `some i` is a pointer to the
element at position `i` and `none` is NULL. The source text instead executes
`return *it;`, yielding the element itself where the declared return type is
the pointer type Element*; that is ill-formed C++ for every non-pointer
element type, so the overload as written cannot even be instantiated at int.
This definition records the specified behavior the slip was meant to have. -/
def find_nothrow {α : Type} [DecidableEq α] (c : List α) (e : α) : Option Nat :=
  match stdFind c e with
  | none => none
  | some i => some i

/-- Embeds the map nothrow find specialization (lines 100-118), which exists
only for maps whose mapped type is a pointer T*: member lookup returning NULL
at the end iterator and otherwise it->second, the stored pointer itself. -/
def find_nothrow_map {κ τ : Type} [LinearOrder κ] (m : StdMap κ (Option τ)) (k : κ) : Option τ :=
  match m.findEntry k with
  | none => none
  | some p => p.2

/- ------------ Insertion utilities ------------ -/

/-- Embeds insert_into for vectors and lists (lines 163-167): push_back. -/
def insert_into {α : Type} (cont : List α) (e : α) : List α :=
  cont.concat e

/-- Embeds std::set insertion on the sorted-list representation: place the
element at its ordered position unless an equivalent element is present, in
which case nothing changes. -/
def setInsert {α : Type} [LinearOrder α] : List α → α → List α
  | [], e => [e]
  | x :: xs, e => if e < x then e :: x :: xs else if x < e then x :: setInsert xs e else x :: xs

lemma setInsert_cons_lt {α : Type} [LinearOrder α] {x e : α} (xs : List α) (h : e < x) :
    setInsert (x :: xs) e = e :: x :: xs := by
  simp [setInsert, h]

lemma setInsert_cons_gt {α : Type} [LinearOrder α] {x e : α} (xs : List α) (h : x < e) :
    setInsert (x :: xs) e = x :: setInsert xs e := by
  have h2 : ¬ e < x := asymm h
  simp [setInsert, h, h2]

lemma setInsert_cons_equiv {α : Type} [LinearOrder α] {x e : α} (xs : List α)
    (h1 : ¬ e < x) (h2 : ¬ x < e) : setInsert (x :: xs) e = x :: xs := by
  simp [setInsert, h1, h2]

lemma mem_setInsert {α : Type} [LinearOrder α] :
    ∀ (l : List α) (e a : α), a ∈ setInsert l e → a = e ∨ a ∈ l := by
  intro l
  induction l with
  | nil =>
    intro e a h
    simp [setInsert] at h
    exact Or.inl h
  | cons x xs ih =>
    intro e a h
    by_cases h1 : e < x
    · rw [setInsert_cons_lt xs h1] at h
      rcases List.mem_cons.mp h with rfl | h2
      · exact Or.inl rfl
      · exact Or.inr h2
    · by_cases h2 : x < e
      · rw [setInsert_cons_gt xs h2] at h
        rcases List.mem_cons.mp h with h3 | h3
        · exact Or.inr (by rw [h3]; exact List.mem_cons_self x xs)
        · rcases ih e a h3 with h4 | h5
          · exact Or.inl h4
          · exact Or.inr (List.mem_cons_of_mem x h5)
      · rw [setInsert_cons_equiv xs h1 h2] at h
        exact Or.inr h

lemma setInsert_pairwise {α : Type} [LinearOrder α] {l : List α} (e : α)
    (h : l.Pairwise (fun a b => a < b)) : (setInsert l e).Pairwise (fun a b => a < b) := by
  induction l with
  | nil => simp [setInsert]
  | cons x xs ih =>
    rcases List.pairwise_cons.mp h with ⟨hx, hxs⟩
    by_cases h1 : e < x
    · rw [setInsert_cons_lt xs h1]
      refine List.pairwise_cons.mpr ⟨?_, h⟩
      intro b hb
      rcases List.mem_cons.mp hb with rfl | hb2
      · exact h1
      · exact lt_trans h1 (hx b hb2)
    · by_cases h2 : x < e
      · rw [setInsert_cons_gt xs h2]
        refine List.pairwise_cons.mpr ⟨?_, ih hxs⟩
        intro b hb
        rcases mem_setInsert xs e b hb with rfl | hb2
        · exact h2
        · exact hx b hb2
      · rw [setInsert_cons_equiv xs h1 h2]
        exact h

/-- Embeds insert_into for sets (lines 170-174): the native set insertion. -/
def StdSet.insert_into {α : Type} [LinearOrder α] (s : StdSet α) (e : α) : StdSet α :=
  ⟨setInsert s.elems e, setInsert_pairwise e s.sorted⟩

/-- Embeds ContainerAdapterImpl::insert (lines 184-198) with a sequence as the
bound container: insert_into (push_back) followed by container.back(), the
returned reference being the last element (here its value, `getLast?`). -/
def ContainerAdapterImpl.insert_list {α : Type} (cont : List α) (e : α) : List α × Option α :=
  (insert_into cont e, (insert_into cont e).getLast?)

/-- Embeds ContainerAdapterImpl::insert with a std::set as the bound container,
as the source text reads: insert_into (the native set insertion) followed by
container.back(), read as the last element in traversal order. Note std::set
offers no back() member, so this instantiation is in fact ill-formed C++. -/
def ContainerAdapterImpl.insert_set {α : Type} [LinearOrder α] (s : StdSet α) (e : α) :
    StdSet α × Option α :=
  (StdSet.insert_into s e, (StdSet.insert_into s e).elems.getLast?)

/-- Embeds copy_container (lines 201-205): std::copy through a back_insert
iterator, i.e. push_back of every source element in traversal order. -/
def copy_container {α : Type} (c1 c2 : List α) : List α :=
  c1.foldl (fun acc e => acc.concat e) c2

/- ------------ Autonomous iterator ------------ -/

/-- Embeds AutonomousIterator over positions: a current position and the bound
end position, fields _current and _end of the source (lines 210-280). -/
structure AutonomousIterator where
  current : Nat
  endPos : Nat

/-- Embeds the two-iterator constructor (lines 219-221). -/
def AutonomousIterator.mkIt (b e : Nat) : AutonomousIterator :=
  ⟨b, e⟩

/-- Embeds the preincrement operator (lines 230-234). -/
def AutonomousIterator.inc (it : AutonomousIterator) : AutonomousIterator :=
  ⟨it.current + 1, it.endPos⟩

/-- Embeds the end() query (lines 276-279): current position equals the bound
end position. -/
def AutonomousIterator.atEnd (it : AutonomousIterator) : Bool :=
  decide (it.current = it.endPos)

/-- Forward advancing a given number of steps, by the preincrement operator. -/
def AutonomousIterator.advanceN (it : AutonomousIterator) : Nat → AutonomousIterator
  | 0 => it
  | k + 1 => (it.inc).advanceN k

/- ------------ Helper lemmas ------------ -/

lemma cmpEquiv_eq {α : Type} [LinearOrder α] (a b : α) : cmpEquiv a b = true ↔ a = b := by
  unfold cmpEquiv
  rcases lt_trichotomy a b with h | h | h
  · simp [h, asymm h, ne_of_lt h]
  · simp [h, lt_irrefl]
  · simp [h, asymm h, (ne_of_lt h).symm]

lemma cmpEquiv_eq_decide {α : Type} [LinearOrder α] (a b : α) : cmpEquiv a b = decide (a = b) := by
  rw [Bool.eq_iff_iff, cmpEquiv_eq, decide_eq_true_iff]

lemma cmpEquiv_of_lt {α : Type} [LinearOrder α] {a b : α} (h : a < b) : cmpEquiv a b = false := by
  simp [cmpEquiv, h]

lemma stdFind_isSome_iff {α : Type} [DecidableEq α] (l : List α) (e : α) :
    (stdFind l e).isSome = true ↔ e ∈ l := by
  induction l with
  | nil => simp [stdFind]
  | cons x xs ih =>
    by_cases h : x = e
    · simp [stdFind, h]
    · simp [stdFind, h, Option.isSome_map', ih, Ne.symm h]

lemma stdFind_eq_none_iff {α : Type} [DecidableEq α] (l : List α) (e : α) :
    stdFind l e = none ↔ e ∉ l := by
  constructor
  · intro h hm
    have h2 := (stdFind_isSome_iff l e).mpr hm
    rw [h] at h2
    simp at h2
  · intro h
    cases hs : stdFind l e with
    | none => rfl
    | some i => exact absurd ((stdFind_isSome_iff l e).mp (by rw [hs]; rfl)) h

lemma stdFind_eq_some {α : Type} [DecidableEq α] :
    ∀ (l : List α) (e : α) (i : Nat), stdFind l e = some i →
      l[i]? = some e ∧ e ∉ l.take i
  | [], e, i, h => by simp [stdFind] at h
  | x :: xs, e, i, h => by
    by_cases hx : x = e
    · have hh : stdFind (x :: xs) e = some 0 := by simp [stdFind, hx]
      rw [hh] at h
      have h0 : 0 = i := Option.some.inj h
      subst h0
      constructor
      · simp [hx]
      · simp
    · have hh : stdFind (x :: xs) e = (stdFind xs e).map (· + 1) := by simp [stdFind, hx]
      rw [hh] at h
      cases hs : stdFind xs e with
      | none => rw [hs] at h; simp at h
      | some j =>
        rw [hs] at h
        simp at h
        subst h
        obtain ⟨h1, h2⟩ := stdFind_eq_some xs e j hs
        constructor
        · simpa using h1
        · rw [List.take_succ_cons]
          intro hmem
          rcases List.mem_cons.mp hmem with h3 | h3
          · exact hx h3.symm
          · exact h2 h3

lemma find?_ext {α : Type} (p q : α → Bool) (h : ∀ a, p a = q a) :
    ∀ l : List α, l.find? p = l.find? q
  | [] => rfl
  | x :: xs => by
    by_cases hx : p x = true
    · rw [List.find?_cons_of_pos _ hx, List.find?_cons_of_pos _ (by rw [← h x]; exact hx)]
    · have hq : ¬ q x = true := by rw [← h x]; exact hx
      rw [List.find?_cons_of_neg _ hx, List.find?_cons_of_neg _ hq, find?_ext p q h xs]

lemma succeeds_find {α : Type} [DecidableEq α] (l : List α) (e : α) :
    succeeds (find l e) = (stdFind l e).isSome := by
  cases h : stdFind l e <;> simp [find, succeeds, h]

lemma succeeds_find_map {κ τ : Type} [LinearOrder κ] (m : StdMap κ τ) (k : κ) :
    succeeds (find_map m k) = (m.entries.find? (fun p => cmpEquiv p.1 k)).isSome := by
  cases h : m.entries.find? (fun p => cmpEquiv p.1 k) <;>
    simp [find_map, StdMap.findEntry, succeeds, h]

lemma contains_eq_succeeds {α : Type} [DecidableEq α] (l : List α) (e : α) :
    contains l e = succeeds (find l e) := by
  cases h : find l e <;> simp [contains, succeeds, h]

lemma contains_iff_mem {α : Type} [DecidableEq α] (l : List α) (e : α) :
    contains l e = true ↔ e ∈ l := by
  rw [contains_eq_succeeds, succeeds_find]
  exact stdFind_isSome_iff l e

lemma contains_map_iff {κ τ : Type} [LinearOrder κ] (m : StdMap κ τ) (k : κ) :
    contains_map m k = true ↔ ∃ p ∈ m.entries, cmpEquiv p.1 k = true := by
  simp [contains_map, StdMap.count, List.countP_pos_iff]

lemma contains_set_iff_mem {α : Type} [LinearOrder α] (s : StdSet α) (k : α) :
    contains_set s k = true ↔ k ∈ s.elems := by
  simp only [contains_set, StdSet.count, decide_eq_true_iff, List.countP_pos_iff]
  constructor
  · rintro ⟨x, hx, hcx⟩
    rw [← (cmpEquiv_eq x k).mp hcx]
    exact hx
  · intro hk
    exact ⟨k, hk, (cmpEquiv_eq k k).mpr rfl⟩

lemma find?_entry_of_mem {κ τ : Type} [LinearOrder κ] :
    ∀ {l : List (κ × τ)}, l.Pairwise (fun a b => a.1 < b.1) → ∀ {k : κ} {v : τ}, (k, v) ∈ l →
      l.find? (fun p => cmpEquiv p.1 k) = some (k, v)
  | [], _, _, _, h => absurd h (List.not_mem_nil _)
  | p :: rest, hp, k, v, h => by
    rcases List.pairwise_cons.mp hp with ⟨hlt, hrest⟩
    rcases List.mem_cons.mp h with h1 | h1
    · have hpk : cmpEquiv p.1 k = true := by
        rw [← h1]
        exact (cmpEquiv_eq k k).mpr rfl
      rw [List.find?_cons_of_pos (p := fun q => cmpEquiv q.1 k) rest hpk, h1]
    · have hk : p.1 < k := hlt (k, v) h1
      have hfalse : ¬ (cmpEquiv p.1 k = true) := by
        rw [cmpEquiv_of_lt hk]
        simp
      rw [List.find?_cons_of_neg (p := fun q => cmpEquiv q.1 k) rest hfalse]
      exact find?_entry_of_mem hrest h1

lemma find?_entry_of_absent {κ τ : Type} [LinearOrder κ] (l : List (κ × τ)) (k : κ)
    (h : ∀ w : τ, (k, w) ∉ l) : l.find? (fun p => cmpEquiv p.1 k) = none := by
  rw [List.find?_eq_none]
  intro p hp hc
  have h1 : p.1 = k := (cmpEquiv_eq p.1 k).mp hc
  exact h p.2 (by rw [← h1, Prod.mk.eta]; exact hp)

lemma setInsert_of_mem {α : Type} [LinearOrder α] {e : α} :
    ∀ {l : List α}, l.Pairwise (fun a b => a < b) → e ∈ l → setInsert l e = l
  | [], _, he => absurd he (List.not_mem_nil e)
  | x :: xs, h, he => by
    rcases List.pairwise_cons.mp h with ⟨hx, hxs⟩
    rcases List.mem_cons.mp he with h1 | h1
    · subst h1
      exact setInsert_cons_equiv xs (lt_irrefl e) (lt_irrefl e)
    · have hxe : x < e := hx e h1
      rw [setInsert_cons_gt xs hxe, setInsert_of_mem hxs h1]

lemma setInsert_length_of_not_mem {α : Type} [LinearOrder α] {e : α} :
    ∀ {l : List α}, e ∉ l → (setInsert l e).length = l.length + 1
  | [], _ => rfl
  | x :: xs, he => by
    have hex : e ≠ x := fun hh => he (by rw [hh]; exact List.mem_cons_self x xs)
    by_cases h1 : e < x
    · rw [setInsert_cons_lt xs h1]
      rfl
    · have h2 : x < e := lt_of_le_of_ne (not_lt.mp h1) (Ne.symm hex)
      rw [setInsert_cons_gt xs h2]
      simp only [List.length_cons]
      rw [setInsert_length_of_not_mem (fun hh => he (List.mem_cons_of_mem x hh))]

lemma mem_setInsert_self_of_not_mem {α : Type} [LinearOrder α] {e : α} :
    ∀ {l : List α}, e ∉ l → e ∈ setInsert l e
  | [], _ => by simp [setInsert]
  | x :: xs, he => by
    have hex : e ≠ x := fun hh => he (by rw [hh]; exact List.mem_cons_self x xs)
    by_cases h1 : e < x
    · rw [setInsert_cons_lt xs h1]
      exact List.mem_cons_self e _
    · have h2 : x < e := lt_of_le_of_ne (not_lt.mp h1) (Ne.symm hex)
      rw [setInsert_cons_gt xs h2]
      exact List.mem_cons_of_mem x
        (mem_setInsert_self_of_not_mem (fun hh => he (List.mem_cons_of_mem x hh)))

lemma foldl_concat_eq_append {α : Type} :
    ∀ (a b : List α), a.foldl (fun acc e => acc.concat e) b = b ++ a
  | [], b => by simp
  | x :: xs, b => by
    simp only [List.foldl_cons]
    rw [foldl_concat_eq_append xs (b.concat x)]
    simp [List.concat_eq_append]

lemma pairwise_getLast?_max {α : Type} [LinearOrder α] :
    ∀ (l : List α), l.Pairwise (fun a b => a < b) → ∀ y : α, l.getLast? = some y →
      ∀ x ∈ l, x ≤ y
  | [], _, y, hy => by simp at hy
  | [a], _, y, hy => by
    intro x hx
    simp at hy
    simp at hx
    rw [hx, hy]
  | a :: b :: t, h, y, hy => by
    rcases List.pairwise_cons.mp h with ⟨ha, ht⟩
    have hy2 : (b :: t).getLast? = some y := by
      rw [← List.getLast?_cons_cons]
      exact hy
    intro x hx
    rcases List.mem_cons.mp hx with h1 | h1
    · have hb : b ≤ y :=
        pairwise_getLast?_max (b :: t) ht y hy2 b (List.mem_cons_self b t)
      rw [h1]
      exact le_of_lt (lt_of_lt_of_le (ha b (List.mem_cons_self b t)) hb)
    · exact pairwise_getLast?_max (b :: t) ht y hy2 x h1

lemma advanceN_mkIt (b e k : Nat) :
    (AutonomousIterator.mkIt b e).advanceN k = AutonomousIterator.mkIt (b + k) e := by
  induction k generalizing b with
  | zero => rfl
  | succ n ih =>
    show ((AutonomousIterator.mkIt b e).inc).advanceN n = _
    have h1 : (AutonomousIterator.mkIt b e).inc = AutonomousIterator.mkIt (b + 1) e := rfl
    rw [h1, ih (b + 1)]
    have h2 : b + 1 + n = b + (n + 1) := by omega
    rw [h2]

lemma find_eq_error_iff {α : Type} [DecidableEq α] (l : List α) (e : α) :
    find l e = Except.error ElementNotFound.mk ↔ stdFind l e = none := by
  unfold find
  cases hs : stdFind l e <;> simp

lemma find_nothrow_eq_stdFind {α : Type} [DecidableEq α] (l : List α) (e : α) :
    find_nothrow l e = stdFind l e := by
  unfold find_nothrow
  cases stdFind l e <;> rfl

/- ------------ Spec reference definitions for the refinement claim ------------ -/

/-- Linear-scan lookup by key over the entries of a mapping, following the
words of the specification (scan each entry, compare its key to the target
for equality, first match wins, signal ElementNotFound on no match): the
reference side of the refinement claim about the map specializations. -/
def linear_scan_find_map {κ τ : Type} [LinearOrder κ] (m : StdMap κ τ) (k : κ) :
    Except ElementNotFound τ :=
  match m.entries.find? (fun p => decide (p.1 = k)) with
  | none => Except.error ElementNotFound.mk
  | some p => Except.ok p.2

/-- Linear-scan membership by key over the entries of a mapping, following
the words of the specification: the reference side of the refinement claim
about the map contains specialization. -/
def linear_scan_contains_map {κ τ : Type} [LinearOrder κ] (m : StdMap κ τ) (k : κ) : Bool :=
  m.entries.any (fun p => decide (p.1 = k))

/- ------------ Claim theorems ------------ -/

/-- C1: for every container kind, contains(C, e) is true exactly when the
signaling find(C, e) succeeds without failing: this holds for the generic
try/catch form of contains, for the vector and list specializations, for the
map count specialization against the signaling map find, and for the set
count specialization against the generic signaling find that a set container
resolves to. Each contains form is a total boolean-valued function, so
contains never signals and always normalizes the lookup outcome into a
boolean. -/
theorem contains_iff_find_succeeds {α κ τ : Type} [DecidableEq α] [LinearOrder κ]
    (l : List α) (e : α) (m : StdMap κ τ) (k : κ) (s : StdSet κ) :
    contains l e = succeeds (find l e) ∧
    contains_seq l e = succeeds (find l e) ∧
    contains_map m k = succeeds (find_map m k) ∧
    contains_set s k = succeeds (find s.elems k) := by
  refine ⟨contains_eq_succeeds l e, ?_, ?_, ?_⟩
  · rw [succeeds_find]
    rfl
  · rw [Bool.eq_iff_iff, succeeds_find_map, contains_map_iff]
    exact (List.find?_isSome).symm
  · rw [Bool.eq_iff_iff, succeeds_find, contains_set_iff_mem]
    exact (stdFind_isSome_iff s.elems k).symm

/-- C2: the specialized lookups of the container kinds with a native lookup
primitive agree with the generic linear-scan definition on every input: the
signaling map find equals the linear scan by key equality, the map contains
specialization equals linear-scan membership by key, and the set contains
specialization equals the generic contains applied to the traversal sequence
of the set. The specializations are performance-only. -/
theorem specialized_lookup_eq_linear_scan {κ τ : Type} [LinearOrder κ]
    (m : StdMap κ τ) (k : κ) (s : StdSet κ) :
    find_map m k = linear_scan_find_map m k ∧
    contains_map m k = linear_scan_contains_map m k ∧
    contains_set s k = contains s.elems k := by
  refine ⟨?_, ?_, ?_⟩
  · unfold find_map linear_scan_find_map StdMap.findEntry
    rw [find?_ext (fun p => cmpEquiv p.1 k) (fun p => decide (p.1 = k))
        (fun p => cmpEquiv_eq_decide p.1 k) m.entries]
  · rw [Bool.eq_iff_iff, contains_map_iff]
    simp [linear_scan_contains_map, cmpEquiv_eq]
  · rw [Bool.eq_iff_iff, contains_set_iff_mem, contains_iff_mem]

/-- C3: the signaling find performs a linear scan comparing each element to
the target by equality: it fails with ElementNotFound exactly when no element
of the container equals the target, and on success the returned reference
designates the first matching element: the element at the returned position
equals the target and no earlier position holds a matching element. -/
theorem find_first_match_or_fails {α : Type} [DecidableEq α] (l : List α) (e : α) :
    (find l e = Except.error ElementNotFound.mk ↔ ∀ x ∈ l, x ≠ e) ∧
    (∀ i : Nat, find l e = Except.ok i → l[i]? = some e ∧ e ∉ l.take i) := by
  constructor
  · rw [find_eq_error_iff, stdFind_eq_none_iff]
    constructor
    · intro h x hx hxe
      exact h (hxe ▸ hx)
    · intro h he
      exact h e he rfl
  · intro i h
    unfold find at h
    cases hs : stdFind l e with
    | none =>
      rw [hs] at h
      exact absurd h (by simp)
    | some j =>
      rw [hs] at h
      simp only [Except.ok.injEq] at h
      subst h
      exact stdFind_eq_some l e j hs

/-- C3 witness: in the sequence [1, 2, 2, 3] the signaling find for 2 returns
position 1, the first of the two positions holding 2. -/
theorem find_first_match_or_fails_witness :
    ([1, 2, 2, 3] : List Int)[1]? = some 2 ∧ (2 : Int) ∉ ([1, 2, 2, 3] : List Int).take 1 :=
  (find_first_match_or_fails ([1, 2, 2, 3] : List Int) 2).2 1 (by rfl)

/-- C4 (claim right, code slipped): behavior of the non-signaling find the
source evidently intends. It never signals (it is a total function), returns
the absent marker NULL exactly when no element equals the target, and
otherwise a nullable reference to the first matching element. The source text
instead executes `return *it;` where the declared return type is the pointer
type Element*, which is ill-formed C++ for every non-pointer element type, so
the overload as written cannot be instantiated at the very example of the
specification (a sequence of integers); the fix is `return &*it;`. -/
theorem find_nothrow_spec {α : Type} [DecidableEq α] (l : List α) (e : α) :
    (find_nothrow l e = none ↔ ∀ x ∈ l, x ≠ e) ∧
    (∀ i : Nat, find_nothrow l e = some i → l[i]? = some e ∧ e ∉ l.take i) := by
  rw [find_nothrow_eq_stdFind]
  constructor
  · rw [stdFind_eq_none_iff]
    constructor
    · intro h x hx hxe
      exact h (hxe ▸ hx)
    · intro h he
      exact h e he rfl
  · intro i h
    exact stdFind_eq_some l e i h

/-- C4 witness: in the sequence [1, 2, 3] the non-signaling find for 2 yields
a pointer to position 1, whose element is 2, with no earlier match. -/
theorem find_nothrow_spec_witness :
    ([1, 2, 3] : List Int)[1]? = some 2 ∧ (2 : Int) ∉ ([1, 2, 3] : List Int).take 1 :=
  (find_nothrow_spec ([1, 2, 3] : List Int) 2).2 1 (by rfl)

/-- C5: insert_into on an ordered- or linked-sequence appends at the logical
end: the traversal sequence after the call is the previous traversal sequence
with the element appended last, and the length always grows by one, so
duplicates are allowed unconditionally. -/
theorem insert_into_appends {α : Type} (l : List α) (e : α) :
    insert_into l e = l ++ [e] ∧
    (insert_into l e).getLast? = some e ∧
    (insert_into l e).length = l.length + 1 := by
  refine ⟨List.concat_eq_append l e, ?_, ?_⟩
  · rw [insert_into, List.concat_eq_append]
    exact List.getLast?_concat l
  · rw [insert_into]
    simp

/-- C6: inserting an element already contained in a unique-key set leaves the
set structurally unchanged (same traversal sequence, so its reported size
does not grow), and inserting a fresh element grows the size by one and makes
the element a member; the operation is a total function, so it never fails or
signals. -/
theorem set_insert_into_spec {α : Type} [LinearOrder α] (s : StdSet α) (e : α) :
    (e ∈ s.elems → (StdSet.insert_into s e).elems = s.elems) ∧
    (e ∉ s.elems → (StdSet.insert_into s e).elems.length = s.elems.length + 1 ∧
      e ∈ (StdSet.insert_into s e).elems) := by
  constructor
  · intro he
    exact setInsert_of_mem s.sorted he
  · intro he
    exact ⟨setInsert_length_of_not_mem he, mem_setInsert_self_of_not_mem he⟩

/-- C6 witness: the unique-key set {1, 2} is unchanged by inserting 2. -/
theorem set_insert_into_spec_witness :
    (2 : Int) ∈ ([1, 2] : List Int) ∧
    (StdSet.insert_into (⟨[1, 2], by decide⟩ : StdSet Int) 2).elems = [1, 2] :=
  ⟨by decide, (set_insert_into_spec (⟨[1, 2], by decide⟩ : StdSet Int) 2).1 (by decide)⟩

/-- C7 counterexample: bind the insertion adapter to the unique-key set
{2, 3} and insert the fresh element 1. The insertion succeeds (the set
becomes {1, 2, 3}) but the adapter returns container.back(), a reference to
3: neither the newly inserted element 1 nor any element equal to it, refuting
the set half of the claim. (In actual C++ the set instantiation does not even
compile, because std::set has no back() member.) -/
theorem adapter_insert_set_counterexample :
    (StdSet.insert_into (⟨[2, 3], by decide⟩ : StdSet Int) 1).elems = [1, 2, 3] ∧
    (ContainerAdapterImpl.insert_set (⟨[2, 3], by decide⟩ : StdSet Int) 1).2 = some 3 ∧
    some (3 : Int) ≠ some (1 : Int) :=
  ⟨by decide, by decide, by decide⟩

/-- C7 amended: the insertable handle returns a reference to the last element
of the bound container after insertion (container.back()). For an ordered- or
linked-sequence this is the just-appended element, as the claim states. For a
unique-key set it is the last element in traversal order, the greatest
element of the set, which need not be the inserted or equal element (and
std::set has no back(), so that instantiation is ill-formed C++). -/
theorem adapter_insert_returns_back {α : Type} [LinearOrder α]
    (l : List α) (e : α) (s : StdSet α) :
    (ContainerAdapterImpl.insert_list l e).1 = l ++ [e] ∧
    (ContainerAdapterImpl.insert_list l e).2 = some e ∧
    (∀ y : α, (ContainerAdapterImpl.insert_set s e).2 = some y →
      ∀ x ∈ (ContainerAdapterImpl.insert_set s e).1.elems, x ≤ y) := by
  refine ⟨List.concat_eq_append l e, ?_, ?_⟩
  · show (insert_into l e).getLast? = some e
    rw [insert_into, List.concat_eq_append]
    exact List.getLast?_concat l
  · intro y hy x hx
    exact pairwise_getLast?_max (setInsert s.elems e) (setInsert_pairwise e s.sorted) y hy x hx

/-- C7 amended witness: appending 1 to the sequence [5] returns a reference
to the appended 1; inserting 1 into the set {2, 3} returns a reference to 3,
an upper bound of the resulting set, of which the member 2 is an instance. -/
theorem adapter_insert_returns_back_witness :
    (ContainerAdapterImpl.insert_list ([5] : List Int) 1).2 = some 1 ∧ (2 : Int) ≤ 3 :=
  ⟨(adapter_insert_returns_back ([5] : List Int) 1 (⟨[2, 3], by decide⟩ : StdSet Int)).2.1,
   (adapter_insert_returns_back ([5] : List Int) 1
      (⟨[2, 3], by decide⟩ : StdSet Int)).2.2 3 (by decide) 2 (by decide)⟩

/-- C8: copy_container traverses the source from its logical start to its
logical end and appends every element to the destination in order without
clearing it (the result is the destination followed by the source), so with
an empty destination the post-copy traversal sequence of the destination
equals the pre-copy traversal sequence of the source. A set or map source is
covered by taking its traversal sequence as the source list. -/
theorem copy_container_spec {α : Type} (a b : List α) :
    copy_container a b = b ++ a ∧ copy_container a ([] : List α) = a := by
  refine ⟨foldl_concat_eq_append a b, ?_⟩
  show a.foldl (fun acc e => acc.concat e) ([] : List α) = a
  rw [foldl_concat_eq_append a ([] : List α)]
  rfl

/-- C9: a cursor over an empty range (start position equal to end position)
reports exhaustion immediately; over a non-empty range it starts active;
advancing it forward exactly the range length many steps makes it exhausted,
and after fewer steps it is still active, so exhaustion happens exactly when
the current position reaches the bound end position. -/
theorem cursor_exhaustion_spec (b e k : Nat) :
    (b = e → (AutonomousIterator.mkIt b e).atEnd = true) ∧
    (b < e → (AutonomousIterator.mkIt b e).atEnd = false) ∧
    (b ≤ e → ((AutonomousIterator.mkIt b e).advanceN (e - b)).atEnd = true) ∧
    (k < e - b → ((AutonomousIterator.mkIt b e).advanceN k).atEnd = false) := by
  refine ⟨?_, ?_, ?_, ?_⟩
  · intro h
    simp [AutonomousIterator.mkIt, AutonomousIterator.atEnd, h]
  · intro h
    simp only [AutonomousIterator.mkIt, AutonomousIterator.atEnd, decide_eq_false_iff_not]
    omega
  · intro h
    rw [advanceN_mkIt]
    simp only [AutonomousIterator.mkIt, AutonomousIterator.atEnd, decide_eq_true_eq]
    omega
  · intro h
    rw [advanceN_mkIt]
    simp only [AutonomousIterator.mkIt, AutonomousIterator.atEnd, decide_eq_false_iff_not]
    omega

/-- C9 witness: a cursor over the range of positions 0 to 3 is exhausted
after advancing 3 steps and still active after 2 steps. -/
theorem cursor_exhaustion_spec_witness :
    ((AutonomousIterator.mkIt 0 3).advanceN (3 - 0)).atEnd = true ∧
    ((AutonomousIterator.mkIt 0 3).advanceN 2).atEnd = false :=
  ⟨(cursor_exhaustion_spec 0 3 0).2.2.1 (by decide),
   (cursor_exhaustion_spec 0 3 2).2.2.2 (by decide)⟩

/-- C10: for a mapping whose mapped type is a pointer, the non-signaling find
returns the stored pointer itself when the key is present, and the absent
marker NULL when the key is absent. Consequently a present key whose stored
value is the null pointer (instantiate the first part at `none`) yields NULL,
the very result of an absent key: the two cases are indistinguishable. The
source offers no non-signaling overload for maps with non-pointer mapped
types (lines 100-118 require the mapped type T*). -/
theorem find_nothrow_map_returns_stored {κ τ : Type} [LinearOrder κ]
    (m : StdMap κ (Option τ)) (k : κ) (v : Option τ) :
    ((k, v) ∈ m.entries → find_nothrow_map m k = v) ∧
    ((∀ w : Option τ, (k, w) ∉ m.entries) → find_nothrow_map m k = none) := by
  constructor
  · intro hmem
    unfold find_nothrow_map StdMap.findEntry
    rw [find?_entry_of_mem m.sortedKeys hmem]
  · intro habs
    unfold find_nothrow_map StdMap.findEntry
    rw [find?_entry_of_absent m.entries k habs]

/-- C10 witness: in the map {1 maps to the null pointer, 2 maps to a pointer
to 5}, the key 1 is contained, yet the non-signaling find for key 1 returns
NULL, indistinguishable from an absent key. -/
theorem find_nothrow_map_returns_stored_witness :
    contains_map
        (⟨[(1, (none : Option Int)), (2, some 5)], by decide⟩ : StdMap Int (Option Int)) 1
      = true ∧
    find_nothrow_map
        (⟨[(1, (none : Option Int)), (2, some 5)], by decide⟩ : StdMap Int (Option Int)) 1
      = none :=
  ⟨by decide,
   (find_nothrow_map_returns_stored
      (⟨[(1, (none : Option Int)), (2, some 5)], by decide⟩ : StdMap Int (Option Int))
      1 none).1 (by decide)⟩

end Mili
